import Mathlib

/-!
Verification of the FusionArc coordinate-mapping and fusion-assembly core.

The definitions below are shallow embeddings of the Python source:
  * `backend/app/core/mapping/genomic_to_protein.py` (coordinate mapper,
    frame evaluator),
  * `backend/app/core/fusion_builder.py` (fusion assembler, domain status,
    kinase summary, confidence),
  * `backend/app/api/v1/fusions.py` (exon status, fusion-transcript builder,
    second copy of the domain-status classifier).

Conventions used throughout:
  * Python `int` is embedded as `Int`; Python `None` as `Option.none`.
  * Python dictionary field `end` is a Lean keyword, so it is named `stop`
    in the structures here; every other field keeps its source name.
  * Python `sorted` is a stable sort; it is embedded as
    `List.insertionSort`, which is stable and sorts with respect to the
    same key comparisons (`reverse=True` becomes a flipped relation).
  * Python `//` and `%` (floor semantics) are embedded with `Int`'s `/`
    and `%`, which agree with floor division/modulus for the positive
    literal divisor `3` used by the source.
  * The external reference-data fetches (`await self.ensembl...`, database
    queries) are out of scope per the spec; the functions receive the
    already-resolved records as parameters.
-/

/-- An exon record as consumed by the mapper: `rank`, genomic `start` and
`end` (named `stop`). -/
structure Exon where
  rank : Int
  start : Int
  stop : Int
deriving DecidableEq, Repr

/-- The `Translation` sub-record of an Ensembl transcript: genomic CDS
`start` and `end` (named `stop`), either possibly absent. -/
structure Translation where
  start : Option Int
  stop : Option Int
deriving DecidableEq, Repr

/-- A resolved transcript record: its exon list and optional `Translation`
(`none` models a missing or empty `Translation` dict, which is falsy in the
source). -/
structure Transcript where
  exons : List Exon
  translation : Option Translation
deriving DecidableEq, Repr

/-- Key relation for `sorted(exons, key=lambda e: e["start"])`. -/
def startLE (a b : Exon) : Prop := a.start ≤ b.start

/-- Key relation for `sorted(exons, key=lambda e: e["end"], reverse=True)`. -/
def stopGE (a b : Exon) : Prop := b.stop ≤ a.stop

/-- Key relation for `sorted(..., key=lambda e: e.get("rank", 0))`. -/
def rankLE (a b : Exon) : Prop := a.rank ≤ b.rank

instance : DecidableRel startLE := fun a b => inferInstanceAs (Decidable (a.start ≤ b.start))
instance : DecidableRel stopGE := fun a b => inferInstanceAs (Decidable (b.stop ≤ a.stop))
instance : DecidableRel rankLE := fun a b => inferInstanceAs (Decidable (a.rank ≤ b.rank))
instance : IsTotal Exon startLE := ⟨fun a b => Int.le_total a.start b.start⟩
instance : IsTrans Exon startLE := ⟨fun _ _ _ h1 h2 => le_trans h1 h2⟩
instance : IsTotal Exon stopGE := ⟨fun a b => Int.le_total b.stop a.stop⟩
instance : IsTrans Exon stopGE := ⟨fun _ _ _ h1 h2 => le_trans h2 h1⟩

/-- The intronic-snap test of `_calculate_cds_position`: the position lies
in the intron adjacent to the previous walked exon (`i > 0` corresponds to
`prev = some p`).  On the `+` strand: the position is before the current
exon's coding start, the previous exon reaches the CDS
(`prev_coding_end >= cds_start`), and the position is past the previous
exon's end; mirrored on the `-` strand. -/
def intronSnap (neg : Bool) (genomic_pos cds_start cds_end : Int) (prev : Option Exon)
    (coding_start coding_end : Int) : Bool :=
  match prev with
  | none => false
  | some p =>
    if neg then
      decide (coding_end < genomic_pos ∧ max p.start cds_start ≤ cds_end ∧
        genomic_pos < p.start)
    else
      decide (genomic_pos < coding_start ∧ cds_start ≤ min p.stop cds_end ∧
        p.stop < genomic_pos)

/-- The exon walk of `GenomicToProteinMapper._calculate_cds_position`.

`prev` is the previous list element (`sorted_exons[i - 1]`; `none` when
`i == 0`), `acc` is the running CDS length.  In the source the variable
`prev_coding_end_pos` always equals the running total `cds_position` at the
top of the loop (both start at 0, a skipped exon changes neither, an
accumulated exon updates both to the same value), so a single accumulator
embeds both.  The base case is the fallthrough after the loop
(`if prev_coding_end_pos > 0: ...`). -/
def calcCdsAux (neg : Bool) (genomic_pos cds_start cds_end : Int) :
    Option Exon → Int → List Exon → Option Int
  | _, acc, [] =>
      if 0 < acc ∧ (if neg then genomic_pos < cds_start else cds_end < genomic_pos)
      then some acc else none
  | prev, acc, e :: rest =>
      let coding_start := max e.start cds_start
      let coding_end := min e.stop cds_end
      if coding_end < coding_start then
        calcCdsAux neg genomic_pos cds_start cds_end (some e) acc rest
      else if coding_start ≤ genomic_pos ∧ genomic_pos ≤ coding_end then
        some (acc + (if neg then coding_end - genomic_pos else genomic_pos - coding_start) + 1)
      else if intronSnap neg genomic_pos cds_start cds_end prev coding_start coding_end then
        some acc
      else
        calcCdsAux neg genomic_pos cds_start cds_end (some e)
          (acc + (coding_end - coding_start + 1)) rest

/-- `GenomicToProteinMapper._calculate_cds_position`: CDS offset (1-based)
of a genomic position, snapping intronic positions to the running total at
the nearest already-visited exon boundary. -/
def _calculate_cds_position (genomic_pos : Int) (strand : String) (exons : List Exon)
    (cds_start cds_end : Int) : Option Int :=
  let neg := strand == "-"
  let sorted_exons :=
    if neg then List.insertionSort stopGE exons else List.insertionSort startLE exons
  calcCdsAux neg genomic_pos cds_start cds_end none 0 sorted_exons

/-- `GenomicToProteinMapper.map_genomic_to_aa` for an already-resolved
transcript (the Ensembl fetch is external).  The chromosome argument of the
source is unused by the computation and omitted.  `cds_start = 0` is falsy
in Python (`if not cds_start`), hence the explicit zero tests. -/
def map_genomic_to_aa (t : Transcript) (position : Int) (strand : String) : Option Int :=
  let exons := List.insertionSort rankLE t.exons
  if exons.isEmpty then none
  else
    match t.translation with
    | none => none
    | some tr =>
      match tr.start, tr.stop with
      | some cds_start, some cds_end =>
        if cds_start = 0 ∨ cds_end = 0 then none
        else
          match _calculate_cds_position position strand exons cds_start cds_end with
          | none => none
          | some cds_position =>
            if cds_position < 1 then none
            else some ((cds_position - 1) / 3 + 1)
      | _, _ => none

/-- `GenomicToProteinMapper.calculate_frame` for a resolved transcript.
The source recomputes the CDS position on the raw (unsorted) exon list;
when `map_genomic_to_aa` already failed it returns `none`.  The source
reads `translation["start"]`/`["end"]` without a zero test here; the
missing-field cases are unreachable when the amino-acid mapping succeeded
and are embedded as `none`. -/
def calculate_frame (t : Transcript) (position : Int) (strand : String) : Option Int :=
  match map_genomic_to_aa t position strand with
  | none => none
  | some _ =>
    match t.translation with
    | none => none
    | some tr =>
      match tr.start, tr.stop with
      | some cds_start, some cds_end =>
        match _calculate_cds_position position strand t.exons cds_start cds_end with
        | none => none
        | some cds_pos => some ((cds_pos - 1) % 3)
      | _, _ => none

/-- Walk state of `_get_cds_length_to_breakpoint`: running totals
`total_cds_length`, `cds_before_breakpoint`, and the `breakpoint_found`
flag. -/
structure CdsWalk where
  total : Int
  before : Int
  found : Bool
deriving DecidableEq, Repr

/-- Loop body of `_get_cds_length_to_breakpoint` for one exon. -/
def cdsLenStep (neg : Bool) (breakpoint cds_start cds_end : Int)
    (s : CdsWalk) (e : Exon) : CdsWalk :=
  let coding_start := max e.start cds_start
  let coding_end := min e.stop cds_end
  if coding_end < coding_start then s
  else
    let coding_length := coding_end - coding_start + 1
    let s' :=
      if s.found then s
      else if breakpoint < coding_start then { s with found := true }
      else if breakpoint ≤ coding_end then
        { s with
          before := s.before +
            (if neg then coding_end - breakpoint + 1 else breakpoint - coding_start + 1),
          found := true }
      else { s with before := s.before + coding_length }
    { s' with total := s'.total + coding_length }

/-- `GenomicToProteinMapper._get_cds_length_to_breakpoint` for a resolved
transcript: coding length before the breakpoint in transcription order
(`is_5prime = true`) or after it (`is_5prime = false`). -/
def _get_cds_length_to_breakpoint (t : Transcript) (breakpoint : Int) (strand : String)
    (is_5prime : Bool) : Option Int :=
  match t.translation with
  | none => none
  | some tr =>
    match tr.start, tr.stop with
    | some cds_start, some cds_end =>
      if t.exons.isEmpty ∨ cds_start = 0 ∨ cds_end = 0 then none
      else
        let neg := strand == "-"
        let sorted_exons := List.insertionSort startLE t.exons
        let w := sorted_exons.foldl (cdsLenStep neg breakpoint cds_start cds_end) ⟨0, 0, false⟩
        let cds_before := if w.found then w.before else w.total
        let cds_before := if neg then w.total - cds_before else cds_before
        some (if is_5prime then cds_before else w.total - cds_before)
    | _, _ => none

/-- `GenomicToProteinMapper.is_in_frame_fusion`: the AGFusion-style frame
compatibility rule over the two CDS lengths at the junction. -/
def is_in_frame_fusion (ta : Transcript) (breakpoint_a : Int) (strand_a : String)
    (tb : Transcript) (breakpoint_b : Int) (strand_b : String) : Option Bool :=
  match _get_cds_length_to_breakpoint ta breakpoint_a strand_a true,
        _get_cds_length_to_breakpoint tb breakpoint_b strand_b false with
  | some cds_len_5prime, some cds_len_3prime =>
    let remainder_5 := cds_len_5prime % 3
    let remainder_3 := cds_len_3prime % 3
    if remainder_5 = 0 ∧ remainder_3 = 0 then some true
    else if remainder_5 + remainder_3 = 3 then some true
    else some false
  | _, _ => none

/-- Coding overlap length of one exon with the CDS span (0 when empty);
the per-exon quantity accumulated by both walks above. -/
def codingLen (cds_start cds_end : Int) (e : Exon) : Int :=
  let a := max e.start cds_start
  let b := min e.stop cds_end
  if b < a then 0 else b - a + 1

/-- Total CDS length of an exon list: what the `total_cds_length`
accumulator of `_get_cds_length_to_breakpoint` computes. -/
def total_cds_length (cds_start cds_end : Int) (exons : List Exon) : Int :=
  (exons.map (codingLen cds_start cds_end)).sum

/-! ## Fusion builder (`backend/app/core/fusion_builder.py`) -/

/-- `KINASE_KEYWORDS` from `fusion_builder.py`. -/
def KINASE_KEYWORDS : List String := ["kinase", "Kinase", "Pkinase", "TyrKc", "S_TKc", "STYKc"]

/-- Python's `sub in s` substring test. -/
def containsSubstr (s sub : String) : Bool := decide (sub.data <:+: s.data)

/-- `any(kw in (domain.name or "") for kw in KINASE_KEYWORDS)`. -/
def is_kinase_name (name : Option String) : Bool :=
  KINASE_KEYWORDS.any (fun kw => containsSubstr (name.getD "") kw)

/-- The `DomainInfo` schema fields used by the analysis (`status` and
`is_kinase` drive the kinase summary; `name`, `start`, `end` identify the
domain).  The pass-through metadata fields (`description`, `source`,
`accession`, `score`, `data_provider`) take no part in any computation and
are omitted. -/
structure DomainInfo where
  name : String
  start : Int
  stop : Int
  status : String
  is_kinase : Bool
deriving DecidableEq, Repr

/-- `FusionBuilder._determine_domain_status` (core builder copy): classify
a domain interval against the amino-acid breakpoint for the given partner
role (`"5prime"` or anything else = 3'). -/
def _determine_domain_status (domain_start domain_stop : Int) (breakpoint : Option Int)
    (position : String) : String :=
  match breakpoint with
  | none => "unknown"
  | some bp =>
    if position = "5prime" then
      if domain_stop ≤ bp then "retained"
      else if bp ≤ domain_start then "lost"
      else "truncated"
    else
      if bp ≤ domain_start then "retained"
      else if domain_stop ≤ bp then "lost"
      else "truncated"

/-- A cached protein-feature row (`models.Domain`): rows reaching the
status classifier always carry numeric `start`/`end` (rows with falsy
bounds are skipped at caching time), while `name` is nullable. -/
structure DomainRow where
  name : Option String
  start : Int
  stop : Int
deriving DecidableEq, Repr

/-- A cached protein (`models.Protein`): optional sequence plus its domain
rows (the database join `Domain.protein_id == protein.id`). -/
structure ProteinRow where
  sequence : Option String
  domains : List DomainRow
deriving DecidableEq, Repr

/-- `FusionBuilder._get_domains_with_status` with the database reads
resolved: build the annotated `DomainInfo` list for one partner.
`name or "Unknown"` maps falsy names (absent or empty) to `"Unknown"`. -/
def _get_domains_with_status (transcript : Option Transcript) (protein : Option ProteinRow)
    (aa_breakpoint : Option Int) (position : String) : List DomainInfo :=
  match transcript with
  | none => []
  | some _ =>
    match protein with
    | none => []
    | some p =>
      p.domains.map (fun d =>
        { name := match d.name with
            | some n => if n = "" then "Unknown" else n
            | none => "Unknown"
          start := d.start
          stop := d.stop
          status := _determine_domain_status d.start d.stop aa_breakpoint position
          is_kinase := is_kinase_name d.name })

/-- `FusionBuilder._build_fusion_sequence` with the protein lookups
resolved.  Amino-acid breakpoints are 1-based and positive whenever
present (see the `map_genomic_to_aa` lower bound below), so Python's
negative-index slicing never arises on reachable inputs and `String.take`/
`String.drop` embed the slices. -/
def _build_fusion_sequence (transcript_a transcript_b : Option Transcript)
    (protein_a protein_b : Option ProteinRow)
    (aa_breakpoint_a aa_breakpoint_b : Option Int) : Option String :=
  match transcript_a, transcript_b with
  | some _, some _ =>
    match protein_a, protein_b with
    | some pa, some pb =>
      let seq_a := pa.sequence.getD ""
      let seq_b := pb.sequence.getD ""
      if seq_a = "" ∨ seq_b = "" then none
      else
        let seq_a_part :=
          match aa_breakpoint_a with
          | some a => if a ≠ 0 ∧ a ≤ (seq_a.length : Int) then seq_a.take a.toNat else seq_a
          | none => seq_a
        let seq_b_part :=
          match aa_breakpoint_b with
          | some b => if b ≠ 0 ∧ b ≤ (seq_b.length : Int) then seq_b.drop (b - 1).toNat else seq_b
          | none => seq_b
        some (seq_a_part ++ seq_b_part)
    | _, _ => none
  | _, _ => none

/-- Loop body of `FusionBuilder._check_kinase_domains` for one domain:
state is `(has_kinase, kinase_retained)`. -/
def kinaseStep (s : Bool × Option Bool) (domain : DomainInfo) : Bool × Option Bool :=
  if domain.is_kinase then
    (true,
      if domain.status = "retained" then some true
      else if domain.status = "lost" ∧ s.2 = none then some false
      else if domain.status = "truncated" then some false
      else s.2)
  else s

/-- `FusionBuilder._check_kinase_domains`: fold the kinase summary over
partner A's domains followed by partner B's. -/
def _check_kinase_domains (domains_a domains_b : List DomainInfo) : Bool × Option Bool :=
  (domains_a ++ domains_b).foldl kinaseStep (false, none)

/-- `FusionBuilder._calculate_confidence`.  Missing read counts are falsy
(`junction_reads or 0`); `is_in_frame` is truthy only when `some true`. -/
def _calculate_confidence (junction_reads spanning_reads : Option Int)
    (is_in_frame : Option Bool) : String :=
  let total_reads := junction_reads.getD 0 + spanning_reads.getD 0
  if 10 ≤ total_reads ∧ is_in_frame = some true then "high"
  else if 5 ≤ total_reads then "medium"
  else "low"

/-- The fields of `FusionCreate` consumed by the assembly computation
(symbols, chromosomes, ids and genome build are copied through
unchanged). -/
structure FusionCreate where
  gene_a_breakpoint : Int
  gene_a_strand : String
  gene_b_breakpoint : Int
  gene_b_strand : String
  junction_reads : Option Int
  spanning_reads : Option Int
deriving DecidableEq, Repr

/-- The reference data `build_fusion` obtains from its collaborators
(Ensembl lookups and database cache): per partner, the resolved transcript
(`none` when the gene or transcript cannot be resolved) and the cached
protein row with its domains. -/
structure FusionEnv where
  transcript_a : Option Transcript
  transcript_b : Option Transcript
  protein_a : Option ProteinRow
  protein_b : Option ProteinRow
deriving DecidableEq, Repr

/-- The analysis fields of the persisted `Fusion` record.  The source
stores tri-states as integer sentinels: `1` true, `0` false, `-1`
unknown. -/
structure FusionRecord where
  aa_breakpoint_a : Option Int
  aa_breakpoint_b : Option Int
  is_in_frame : Int
  fusion_sequence : Option String
  domains_a : List DomainInfo
  domains_b : List DomainInfo
  has_kinase_domain : Int
  kinase_retained : Int
  confidence : String
deriving DecidableEq, Repr

/-- `FusionBuilder.build_fusion` with the external fetches resolved into
`env`: a total function — missing reference data degrades fields to
`none`/`[]`/`-1`, it never fails. -/
def build_fusion (env : FusionEnv) (fusion_data : FusionCreate) : FusionRecord :=
  let aa_breakpoint_a :=
    match env.transcript_a with
    | some t => map_genomic_to_aa t fusion_data.gene_a_breakpoint fusion_data.gene_a_strand
    | none => none
  let aa_breakpoint_b :=
    match env.transcript_b with
    | some t => map_genomic_to_aa t fusion_data.gene_b_breakpoint fusion_data.gene_b_strand
    | none => none
  let is_in_frame :=
    match env.transcript_a, env.transcript_b with
    | some ta, some tb =>
        is_in_frame_fusion ta fusion_data.gene_a_breakpoint fusion_data.gene_a_strand
          tb fusion_data.gene_b_breakpoint fusion_data.gene_b_strand
    | _, _ => none
  let domains_a :=
    match env.transcript_a with
    | some _ => _get_domains_with_status env.transcript_a env.protein_a aa_breakpoint_a "5prime"
    | none => []
  let domains_b :=
    match env.transcript_b with
    | some _ => _get_domains_with_status env.transcript_b env.protein_b aa_breakpoint_b "3prime"
    | none => []
  let fusion_sequence :=
    _build_fusion_sequence env.transcript_a env.transcript_b env.protein_a env.protein_b
      aa_breakpoint_a aa_breakpoint_b
  let ks := _check_kinase_domains domains_a domains_b
  let confidence :=
    _calculate_confidence fusion_data.junction_reads fusion_data.spanning_reads is_in_frame
  { aa_breakpoint_a := aa_breakpoint_a
    aa_breakpoint_b := aa_breakpoint_b
    is_in_frame :=
      match is_in_frame with
      | some true => 1
      | some false => 0
      | none => -1
    fusion_sequence := fusion_sequence
    domains_a := domains_a
    domains_b := domains_b
    has_kinase_domain := if ks.1 then 1 else 0
    kinase_retained :=
      match ks.2 with
      | some true => 1
      | some false => 0
      | none => -1
    confidence := confidence }

/-! ## Visualization builder (`backend/app/api/v1/fusions.py`) -/

namespace FusionsApi

/-- The second copy of `_determine_domain_status` (in `fusions.py`), which
additionally guards against nullable domain bounds. -/
def _determine_domain_status (domain_start domain_stop : Option Int)
    (breakpoint : Option Int) (position : String) : String :=
  match breakpoint, domain_start, domain_stop with
  | some bp, some ds, some de =>
    if position = "5prime" then
      if de ≤ bp then "retained"
      else if bp ≤ ds then "lost"
      else "truncated"
    else
      if bp ≤ ds then "retained"
      else if de ≤ bp then "lost"
      else "truncated"
  | _, _, _ => "unknown"

/-- The `ExonInfo` schema fields used by `_build_fusion_transcript`
(`cds_start`/`cds_end` within the exon are carried by the source but not
read by the transcript builder and are omitted). -/
structure ExonInfo where
  rank : Int
  start : Int
  stop : Int
  is_coding : Bool
  status : String
deriving DecidableEq, Repr

/-- The `FusionExonInfo` schema: a spliced exon segment in
fusion-transcript-local coordinates. -/
structure FusionExonInfo where
  gene : String
  rank : Int
  start : Int
  stop : Int
  length : Int
  is_coding : Bool
  original_genomic_start : Int
  original_genomic_end : Int
deriving DecidableEq, Repr

/-- The `FusionTranscriptData` schema. -/
structure FusionTranscriptData where
  total_length : Int
  cds_start : Option Int
  cds_end : Option Int
  junction_position : Int
  exons : List FusionExonInfo
deriving DecidableEq, Repr

/-- The per-exon length computation of `_build_fusion_transcript`: the
full exon length, or for a `partial` exon with a truthy breakpoint the
retained portion only.  `five_prime` selects the partner-A rule
(`breakpoint - start` on `+`, `stop - breakpoint` on `-`) versus the
mirrored partner-B rule.  A breakpoint of `0` is falsy in the source
(`and breakpoint_a:`), hence the `≠ 0` test. -/
def segLength (breakpoint : Option Int) (strand : Option String) (five_prime : Bool)
    (e : ExonInfo) : Int :=
  if e.status = "partial" ∧ breakpoint.getD 0 ≠ 0 then
    if five_prime then
      if strand = some "+" then max 0 (breakpoint.getD 0 - e.start)
      else max 0 (e.stop - breakpoint.getD 0)
    else
      if strand = some "+" then max 0 (e.stop - breakpoint.getD 0)
      else max 0 (breakpoint.getD 0 - e.start)
  else e.stop - e.start + 1

/-- One partner's segment-emitting loop of `_build_fusion_transcript`:
walks the (already filtered) retained/partial exons accumulating the
fusion-transcript offset, emitting a segment only when the computed length
is positive.  Returns the emitted segments and the final offset. -/
def buildSegs (gene : String) (breakpoint : Option Int) (strand : Option String)
    (five_prime : Bool) : Int → List ExonInfo → List FusionExonInfo × Int
  | current_pos, [] => ([], current_pos)
  | current_pos, e :: rest =>
    let exon_length := segLength breakpoint strand five_prime e
    if 0 < exon_length then
      let seg : FusionExonInfo :=
        { gene := gene, rank := e.rank, start := current_pos, stop := current_pos + exon_length
          length := exon_length, is_coding := e.is_coding
          original_genomic_start := e.start, original_genomic_end := e.stop }
      let r := buildSegs gene breakpoint strand five_prime (current_pos + exon_length) rest
      (seg :: r.1, r.2)
    else buildSegs gene breakpoint strand five_prime current_pos rest

/-- The CDS-boundary scan at the end of `_build_fusion_transcript`: first
coding segment's start, last coding segment's end. -/
def cdsBounds : Option Int × Option Int → List FusionExonInfo → Option Int × Option Int
  | s, [] => s
  | (cs, ce), e :: rest =>
    if e.is_coding then
      cdsBounds (if cs = none then some e.start else cs, some e.stop) rest
    else cdsBounds (cs, ce) rest

/-- `_build_fusion_transcript`: splice both partners' retained/partial
exons into one fusion-transcript coordinate space.  The unused
`gene_a_data`/`gene_b_data` parameters of the source are omitted. -/
def _build_fusion_transcript (exons_a exons_b : List ExonInfo)
    (breakpoint_a breakpoint_b : Option Int)
    (strand_a strand_b : Option String) : Option FusionTranscriptData :=
  if exons_a = [] ∧ exons_b = [] then none
  else
    let retained_exons_a := exons_a.filter (fun e => e.status = "retained" ∨ e.status = "partial")
    let ra := buildSegs "A" breakpoint_a strand_a true 0 retained_exons_a
    let junction_pos := ra.2
    let retained_exons_b := exons_b.filter (fun e => e.status = "retained" ∨ e.status = "partial")
    let rb := buildSegs "B" breakpoint_b strand_b false junction_pos retained_exons_b
    let fusion_exons := ra.1 ++ rb.1
    let bounds := cdsBounds (none, none) fusion_exons
    some { total_length := rb.2, cds_start := bounds.1, cds_end := bounds.2
           junction_position := junction_pos, exons := fusion_exons }

/-- Segment offsets are cumulative from `p`: each segment starts where the
previous one stopped and spans exactly its length. -/
def startsCumulative : Int → List FusionExonInfo → Prop
  | _, [] => True
  | p, s :: rest => s.start = p ∧ s.stop = p + s.length ∧ startsCumulative (p + s.length) rest

end FusionsApi

/-! ## Auxiliary predicates used by the theorems -/

/-- Two exons occupy disjoint genomic intervals. -/
def exonsDisjoint (a b : Exon) : Prop := a.stop < b.start ∨ b.stop < a.start

instance : DecidableRel exonsDisjoint :=
  fun a b => inferInstanceAs (Decidable (a.stop < b.start ∨ b.stop < a.start))

theorem exonsDisjoint_symm : Symmetric exonsDisjoint := fun _ _ h => h.symm

/-- The genomic position of the first CDS base in transcription order:
`cds_start` on the `+` strand, `cds_end` on the `-` strand. -/
def firstCdsBase (strand : String) (cds_start cds_end : Int) : Int :=
  if strand = "-" then cds_end else cds_start

/-! ## Helper lemmas -/

theorem kinase_foldl_fst (l : List DomainInfo) :
    ∀ b o, (l.foldl kinaseStep (b, o)).1 = (b || l.any (fun d => d.is_kinase)) := by
  induction l with
  | nil => intro b o; simp
  | cons d t ih =>
    intro b o
    simp only [List.foldl_cons, List.any_cons]
    by_cases hk : d.is_kinase
    · rw [show kinaseStep (b, o) d = (true, (kinaseStep (b, o) d).2) from by
          simp [kinaseStep, hk]]
      rw [ih]
      simp [hk]
    · rw [show kinaseStep (b, o) d = (b, o) from by simp [kinaseStep, hk]]
      rw [ih]
      simp [hk]

/-! ## Claims -/

/-- C1: `is_in_frame_fusion` returns `none` when either partner's
CDS-length-to-breakpoint is `none`; otherwise, with `r5 = len5 mod 3` and
`r3 = len3 mod 3`, it returns `true` exactly when `r5 = 0 ∧ r3 = 0` or
`r5 + r3 = 3`, and `false` in every other case. -/
theorem c1_in_frame_rule (ta tb : Transcript) (breakpoint_a breakpoint_b : Int)
    (strand_a strand_b : String) :
    ((_get_cds_length_to_breakpoint ta breakpoint_a strand_a true = none ∨
        _get_cds_length_to_breakpoint tb breakpoint_b strand_b false = none) →
      is_in_frame_fusion ta breakpoint_a strand_a tb breakpoint_b strand_b = none) ∧
    (∀ len5 len3,
      _get_cds_length_to_breakpoint ta breakpoint_a strand_a true = some len5 →
      _get_cds_length_to_breakpoint tb breakpoint_b strand_b false = some len3 →
      is_in_frame_fusion ta breakpoint_a strand_a tb breakpoint_b strand_b =
        some (decide ((len5 % 3 = 0 ∧ len3 % 3 = 0) ∨ len5 % 3 + len3 % 3 = 3))) := by
  constructor
  · intro h
    unfold is_in_frame_fusion
    rcases h with h | h
    · rw [h]
    · rw [h]
      cases _get_cds_length_to_breakpoint ta breakpoint_a strand_a true <;> rfl
  · intro len5 len3 h5 h3
    unfold is_in_frame_fusion
    rw [h5, h3]
    by_cases h1 : len5 % 3 = 0 ∧ len3 % 3 = 0
    · simp only [if_pos h1, Option.some.injEq]
      exact (decide_eq_true (Or.inl h1)).symm
    · by_cases h2 : len5 % 3 + len3 % 3 = 3
      · simp only [if_neg h1, if_pos h2, Option.some.injEq]
        exact (decide_eq_true (Or.inr h2)).symm
      · simp only [if_neg h1, if_neg h2, Option.some.injEq]
        exact (decide_eq_false (by tauto)).symm

theorem c1_in_frame_rule_witness :
    _get_cds_length_to_breakpoint ⟨[⟨1, 1, 1000⟩], some ⟨some 1, some 300⟩⟩ 300 "+" true =
        some 300 ∧
    _get_cds_length_to_breakpoint ⟨[⟨1, 1, 1000⟩], some ⟨some 1, some 600⟩⟩ 3 "+" false =
        some 597 ∧
    is_in_frame_fusion ⟨[⟨1, 1, 1000⟩], some ⟨some 1, some 300⟩⟩ 300 "+"
        ⟨[⟨1, 1, 1000⟩], some ⟨some 1, some 600⟩⟩ 3 "+" =
      some (decide (((300 : Int) % 3 = 0 ∧ (597 : Int) % 3 = 0) ∨
        (300 : Int) % 3 + (597 : Int) % 3 = 3)) :=
  ⟨by decide, by decide,
    (c1_in_frame_rule ⟨[⟨1, 1, 1000⟩], some ⟨some 1, some 300⟩⟩
        ⟨[⟨1, 1, 1000⟩], some ⟨some 1, some 600⟩⟩ 300 3 "+" "+").2
      300 597 (by decide) (by decide)⟩

/-- C3 counterexample: for a 5'-partner domain with `start = 100` and
`end = 200`, a breakpoint of exactly 100 is classified `lost` by the code
(`domain_start >= breakpoint` holds at equality), not `truncated` as the
claim states. -/
theorem c3_counterexample :
    _determine_domain_status 100 200 (some 100) "5prime" = "lost" ∧
    ("lost" : String) ≠ "truncated" := by
  constructor
  · rfl
  · decide

/-- C3 (amended): for a 5'-partner domain with `start = 100`, `end = 200`,
a breakpoint of exactly 200 is `retained` and a breakpoint of exactly 100
is `lost`, in both copies of the classifier (`fusion_builder.py` and
`fusions.py`). -/
theorem c3_domain_boundary :
    _determine_domain_status 100 200 (some 200) "5prime" = "retained" ∧
    _determine_domain_status 100 200 (some 100) "5prime" = "lost" ∧
    FusionsApi._determine_domain_status (some 100) (some 200) (some 200) "5prime" = "retained" ∧
    FusionsApi._determine_domain_status (some 100) (some 200) (some 100) "5prime" = "lost" := by
  refine ⟨rfl, rfl, rfl, rfl⟩

/-- C6: the kinase summary starts undecided and is folded left to right
over partner A's domains then partner B's; per kinase domain, `retained`
sets the tri-state to `true`, `lost` sets it to `false` only when still
undecided, `truncated` sets it to `false` unconditionally; non-kinase
domains change nothing; and `has_kinase` is true exactly when some domain
of either list is a kinase. -/
theorem c6_kinase_summary (domains_a domains_b : List DomainInfo)
    (s : Bool × Option Bool) (d : DomainInfo) :
    _check_kinase_domains domains_a domains_b =
        (domains_a ++ domains_b).foldl kinaseStep (false, none) ∧
    (d.is_kinase = true → d.status = "retained" → kinaseStep s d = (true, some true)) ∧
    (d.is_kinase = true → d.status = "lost" → s.2 = none → kinaseStep s d = (true, some false)) ∧
    (d.is_kinase = true → d.status = "lost" → ∀ b, s.2 = some b → kinaseStep s d = (true, some b)) ∧
    (d.is_kinase = true → d.status = "truncated" → kinaseStep s d = (true, some false)) ∧
    (d.is_kinase = false → kinaseStep s d = s) ∧
    ((_check_kinase_domains domains_a domains_b).1 = true ↔
      ∃ x ∈ domains_a ++ domains_b, x.is_kinase = true) := by
  refine ⟨rfl, ?_, ?_, ?_, ?_, ?_, ?_⟩
  · intro hk hst; simp [kinaseStep, hk, hst]
  · intro hk hst hn; simp [kinaseStep, hk, hst, hn]
  · intro hk hst b hb; simp [kinaseStep, hk, hst, hb]
  · intro hk hst; simp [kinaseStep, hk, hst]
  · intro hk; simp [kinaseStep, hk]
  · rw [_check_kinase_domains, kinase_foldl_fst]
    simp only [Bool.false_or, List.any_eq_true, List.mem_append]

theorem c6_kinase_summary_witness :
    kinaseStep (false, none) ⟨"Pkinase", 1, 100, "retained", true⟩ = (true, some true) ∧
    kinaseStep (true, some true) ⟨"Pkinase", 1, 100, "truncated", true⟩ = (true, some false) ∧
    kinaseStep (false, none) ⟨"Pkinase", 1, 100, "lost", true⟩ = (true, some false) ∧
    kinaseStep (true, some true) ⟨"Pkinase", 1, 100, "lost", true⟩ = (true, some true) ∧
    kinaseStep (false, none) ⟨"SH2", 1, 100, "lost", false⟩ = (false, none) :=
  ⟨(c6_kinase_summary [] [] (false, none) ⟨"Pkinase", 1, 100, "retained", true⟩).2.1 rfl rfl,
    (c6_kinase_summary [] [] (true, some true) ⟨"Pkinase", 1, 100, "truncated", true⟩).2.2.2.2.1
      rfl rfl,
    (c6_kinase_summary [] [] (false, none) ⟨"Pkinase", 1, 100, "lost", true⟩).2.2.1 rfl rfl rfl,
    (c6_kinase_summary [] [] (true, some true) ⟨"Pkinase", 1, 100, "lost", true⟩).2.2.2.1
      rfl rfl true rfl,
    (c6_kinase_summary [] [] (false, none) ⟨"SH2", 1, 100, "lost", false⟩).2.2.2.2.2.1 rfl⟩

/-- C7: the confidence label is `"high"` exactly when the read sum (missing
counts read as 0) is at least 10 and the in-frame verdict is `some true`;
otherwise `"medium"` exactly when the read sum is at least 5; `"low"` in
all remaining cases.  The last two conjuncts state that a missing read
count behaves as 0. -/
theorem c7_confidence_rule (junction_reads spanning_reads : Option Int)
    (is_in_frame : Option Bool) :
    (_calculate_confidence junction_reads spanning_reads is_in_frame = "high" ↔
      10 ≤ junction_reads.getD 0 + spanning_reads.getD 0 ∧ is_in_frame = some true) ∧
    (_calculate_confidence junction_reads spanning_reads is_in_frame = "medium" ↔
      ¬(10 ≤ junction_reads.getD 0 + spanning_reads.getD 0 ∧ is_in_frame = some true) ∧
        5 ≤ junction_reads.getD 0 + spanning_reads.getD 0) ∧
    (_calculate_confidence junction_reads spanning_reads is_in_frame = "low" ↔
      ¬(10 ≤ junction_reads.getD 0 + spanning_reads.getD 0 ∧ is_in_frame = some true) ∧
        ¬5 ≤ junction_reads.getD 0 + spanning_reads.getD 0) ∧
    _calculate_confidence none spanning_reads is_in_frame =
      _calculate_confidence (some 0) spanning_reads is_in_frame ∧
    _calculate_confidence junction_reads none is_in_frame =
      _calculate_confidence junction_reads (some 0) is_in_frame := by
  refine ⟨?_, ?_, ?_, rfl, rfl⟩ <;>
    · simp only [_calculate_confidence]
      split_ifs with h1 h2 <;> simp_all

theorem cdsLenStep_total (neg : Bool) (breakpoint cds_start cds_end : Int) (l : List Exon) :
    ∀ s : CdsWalk, (l.foldl (cdsLenStep neg breakpoint cds_start cds_end) s).total =
      s.total + total_cds_length cds_start cds_end l := by
  induction l with
  | nil => intro s; simp [total_cds_length]
  | cons e rest ih =>
    intro s
    rw [List.foldl_cons, ih]
    have hstep : (cdsLenStep neg breakpoint cds_start cds_end s e).total =
        s.total + codingLen cds_start cds_end e := by
      simp only [cdsLenStep, codingLen]
      split_ifs <;> simp
    rw [hstep]
    simp only [total_cds_length, List.map_cons, List.sum_cons]
    omega

theorem gclb_sum (exons : List Exon) (cds_start cds_end breakpoint : Int) (strand : String)
    (hcs : cds_start ≠ 0) (hce : cds_end ≠ 0) (hx : exons ≠ []) :
    ∃ len5 len3,
      _get_cds_length_to_breakpoint ⟨exons, some ⟨some cds_start, some cds_end⟩⟩
          breakpoint strand true = some len5 ∧
      _get_cds_length_to_breakpoint ⟨exons, some ⟨some cds_start, some cds_end⟩⟩
          breakpoint strand false = some len3 ∧
      len5 + len3 = total_cds_length cds_start cds_end exons := by
  obtain ⟨w, hw⟩ : ∃ w, (List.insertionSort startLE exons).foldl
      (cdsLenStep (strand == "-") breakpoint cds_start cds_end) ⟨0, 0, false⟩ = w := ⟨_, rfl⟩
  have htot : w.total = total_cds_length cds_start cds_end exons := by
    rw [← hw, cdsLenStep_total (strand == "-") breakpoint cds_start cds_end
      (List.insertionSort startLE exons) ⟨0, 0, false⟩]
    show (0 : Int) + total_cds_length cds_start cds_end (List.insertionSort startLE exons) = _
    rw [zero_add]
    exact ((List.perm_insertionSort startLE exons).map (codingLen cds_start cds_end)).sum_eq
  refine ⟨if strand == "-" then w.total - (if w.found then w.before else w.total)
            else (if w.found then w.before else w.total),
          w.total - (if strand == "-" then w.total - (if w.found then w.before else w.total)
            else (if w.found then w.before else w.total)), ?_, ?_, by omega⟩
  · simp only [_get_cds_length_to_breakpoint]
    rw [if_neg (by simp [hcs, hce, hx]), hw]
    simp
  · simp only [_get_cds_length_to_breakpoint]
    rw [if_neg (by simp [hcs, hce, hx]), hw]
    simp

/-- C4: for a single-exon coding transcript, the 5' CDS length to a
breakpoint plus the 3' CDS length from the same breakpoint equals the
transcript's total CDS length, on either strand (whenever both are
defined, which for a coding single-exon transcript is always). -/
theorem c4_roundtrip_single_exon (e : Exon) (cds_start cds_end breakpoint : Int)
    (strand : String) (hcs : cds_start ≠ 0) (hce : cds_end ≠ 0) :
    ∀ len5 len3,
      _get_cds_length_to_breakpoint ⟨[e], some ⟨some cds_start, some cds_end⟩⟩
          breakpoint strand true = some len5 →
      _get_cds_length_to_breakpoint ⟨[e], some ⟨some cds_start, some cds_end⟩⟩
          breakpoint strand false = some len3 →
      len5 + len3 = total_cds_length cds_start cds_end [e] := by
  intro len5 len3 h5 h3
  obtain ⟨l5, l3, e5, e3, hsum⟩ :=
    gclb_sum [e] cds_start cds_end breakpoint strand hcs hce (by simp)
  rw [h5] at e5
  rw [h3] at e3
  obtain rfl := Option.some.inj e5
  obtain rfl := Option.some.inj e3
  exact hsum

theorem c4_roundtrip_single_exon_witness :
    (12 : Int) ≠ 0 ∧ (28 : Int) ≠ 0 ∧
    (9 : Int) + 8 = total_cds_length 12 28 [⟨1, 10, 30⟩] :=
  ⟨by decide, by decide,
    c4_roundtrip_single_exon ⟨1, 10, 30⟩ 12 28 20 "+" (by decide) (by decide)
      9 8 (by decide) (by decide)⟩

/-- C8: when one partner's transcript cannot be resolved, `build_fusion`
still returns a record (it is a total function of the resolved reference
data): that partner's amino-acid breakpoint is `none`, the in-frame
verdict is the `unknown` sentinel `-1` (not the `false` sentinel `0`),
that partner's domain list is empty, and the other partner's fields are
still computed from its own transcript and protein. -/
theorem c8_missing_transcript_degrades (env : FusionEnv) (fusion_data : FusionCreate) :
    (env.transcript_a = none →
      (build_fusion env fusion_data).aa_breakpoint_a = none ∧
      (build_fusion env fusion_data).is_in_frame = -1 ∧
      (build_fusion env fusion_data).domains_a = [] ∧
      (build_fusion env fusion_data).fusion_sequence = none ∧
      (∀ tb, env.transcript_b = some tb →
        (build_fusion env fusion_data).aa_breakpoint_b =
          map_genomic_to_aa tb fusion_data.gene_b_breakpoint fusion_data.gene_b_strand ∧
        (build_fusion env fusion_data).domains_b =
          _get_domains_with_status env.transcript_b env.protein_b
            (map_genomic_to_aa tb fusion_data.gene_b_breakpoint fusion_data.gene_b_strand)
            "3prime")) ∧
    (env.transcript_b = none →
      (build_fusion env fusion_data).aa_breakpoint_b = none ∧
      (build_fusion env fusion_data).is_in_frame = -1 ∧
      (build_fusion env fusion_data).domains_b = [] ∧
      (build_fusion env fusion_data).fusion_sequence = none ∧
      (∀ ta, env.transcript_a = some ta →
        (build_fusion env fusion_data).aa_breakpoint_a =
          map_genomic_to_aa ta fusion_data.gene_a_breakpoint fusion_data.gene_a_strand ∧
        (build_fusion env fusion_data).domains_a =
          _get_domains_with_status env.transcript_a env.protein_a
            (map_genomic_to_aa ta fusion_data.gene_a_breakpoint fusion_data.gene_a_strand)
            "5prime")) := by
  constructor
  · intro ha
    refine ⟨?_, ?_, ?_, ?_, ?_⟩
    · simp [build_fusion, ha]
    · simp [build_fusion, ha]
    · simp [build_fusion, ha]
    · simp [build_fusion, ha, _build_fusion_sequence]
    · intro tb htb
      constructor
      · simp [build_fusion, ha, htb]
      · simp [build_fusion, ha, htb]
  · intro hb
    refine ⟨?_, ?_, ?_, ?_, ?_⟩
    · simp [build_fusion, hb]
    · cases hta : env.transcript_a <;> simp [build_fusion, hb, hta]
    · simp [build_fusion, hb]
    · cases hta : env.transcript_a <;> simp [build_fusion, hb, hta, _build_fusion_sequence]
    · intro ta hta
      constructor
      · simp [build_fusion, hb, hta]
      · simp [build_fusion, hb, hta]

theorem c8_missing_transcript_degrades_witness :
    (build_fusion ⟨none, some ⟨[⟨1, 100, 200⟩], some ⟨some 120, some 180⟩⟩, none, none⟩
        ⟨120, "+", 125, "+", none, none⟩).aa_breakpoint_a = none ∧
    (build_fusion ⟨none, some ⟨[⟨1, 100, 200⟩], some ⟨some 120, some 180⟩⟩, none, none⟩
        ⟨120, "+", 125, "+", none, none⟩).is_in_frame = -1 ∧
    (build_fusion ⟨none, some ⟨[⟨1, 100, 200⟩], some ⟨some 120, some 180⟩⟩, none, none⟩
        ⟨120, "+", 125, "+", none, none⟩).aa_breakpoint_b =
      map_genomic_to_aa ⟨[⟨1, 100, 200⟩], some ⟨some 120, some 180⟩⟩ 125 "+" ∧
    (build_fusion ⟨some ⟨[⟨1, 100, 200⟩], some ⟨some 120, some 180⟩⟩, none, none, none⟩
        ⟨120, "+", 125, "+", none, none⟩).aa_breakpoint_b = none :=
  ⟨((c8_missing_transcript_degrades
      ⟨none, some ⟨[⟨1, 100, 200⟩], some ⟨some 120, some 180⟩⟩, none, none⟩
      ⟨120, "+", 125, "+", none, none⟩).1 rfl).1,
    ((c8_missing_transcript_degrades
      ⟨none, some ⟨[⟨1, 100, 200⟩], some ⟨some 120, some 180⟩⟩, none, none⟩
      ⟨120, "+", 125, "+", none, none⟩).1 rfl).2.1,
    (((c8_missing_transcript_degrades
      ⟨none, some ⟨[⟨1, 100, 200⟩], some ⟨some 120, some 180⟩⟩, none, none⟩
      ⟨120, "+", 125, "+", none, none⟩).1 rfl).2.2.2.2
        ⟨[⟨1, 100, 200⟩], some ⟨some 120, some 180⟩⟩ rfl).1,
    ((c8_missing_transcript_degrades
      ⟨some ⟨[⟨1, 100, 200⟩], some ⟨some 120, some 180⟩⟩, none, none, none⟩
      ⟨120, "+", 125, "+", none, none⟩).2 rfl).1⟩

/-- C10: whenever `map_genomic_to_aa` returns a value, that value is at
least 1; a computed CDS position below 1 (including the intronic-snap
value 0) is mapped to `none` by the `cds_position < 1` guard rather than
to a zero or negative amino-acid position. -/
theorem c10_aa_lower_bound (t : Transcript) (position : Int) (strand : String) :
    ∀ aa, map_genomic_to_aa t position strand = some aa → 1 ≤ aa := by
  intro aa h
  simp only [map_genomic_to_aa] at h
  repeat' split at h
  any_goals simp_all
  any_goals omega

theorem c10_aa_lower_bound_witness :
    map_genomic_to_aa ⟨[⟨1, 100, 200⟩], some ⟨some 120, some 180⟩⟩ 125 "+" = some 2 ∧
    (1 : Int) ≤ 2 :=
  ⟨by decide,
    c10_aa_lower_bound ⟨[⟨1, 100, 200⟩], some ⟨some 120, some 180⟩⟩ 125 "+" 2 (by decide)⟩

theorem buildSegs_final (gene : String) (breakpoint : Option Int) (strand : Option String)
    (five_prime : Bool) :
    ∀ (exons : List FusionsApi.ExonInfo) (pos : Int),
      (FusionsApi.buildSegs gene breakpoint strand five_prime pos exons).2 =
        pos + (((FusionsApi.buildSegs gene breakpoint strand five_prime pos exons).1.map
          (fun s => s.length)).sum) ∧
      (∀ s ∈ (FusionsApi.buildSegs gene breakpoint strand five_prime pos exons).1,
        0 < s.length ∧ s.gene = gene) ∧
      FusionsApi.startsCumulative pos
        (FusionsApi.buildSegs gene breakpoint strand five_prime pos exons).1 := by
  intro exons
  induction exons with
  | nil =>
    intro pos
    simp [FusionsApi.buildSegs, FusionsApi.startsCumulative]
  | cons e rest ih =>
    intro pos
    simp only [FusionsApi.buildSegs]
    split_ifs with hpos
    · obtain ⟨ih1, ih2, ih3⟩ :=
        ih (pos + FusionsApi.segLength breakpoint strand five_prime e)
      refine ⟨?_, ?_, ?_⟩
      · simp only [List.map_cons, List.sum_cons]
        rw [ih1]
        ring
      · intro s hs
        rcases List.mem_cons.mp hs with rfl | hs'
        · exact ⟨hpos, rfl⟩
        · exact ih2 s hs'
      · exact ⟨rfl, rfl, ih3⟩
    · exact ih pos

theorem startsCumulative_append (l1 : List FusionsApi.FusionExonInfo) :
    ∀ (p : Int) (l2 : List FusionsApi.FusionExonInfo),
      FusionsApi.startsCumulative p (l1 ++ l2) ↔
        (FusionsApi.startsCumulative p l1 ∧
          FusionsApi.startsCumulative (p + (l1.map (fun s => s.length)).sum) l2) := by
  induction l1 with
  | nil =>
    intro p l2
    simp [FusionsApi.startsCumulative]
  | cons s t ih =>
    intro p l2
    simp only [List.cons_append, FusionsApi.startsCumulative, List.map_cons, List.sum_cons,
      List.append_eq]
    rw [ih, ← add_assoc]
    tauto

/-- C5: `_build_fusion_transcript` returns `none` exactly when both input
exon lists are empty; otherwise the produced record satisfies:
`total_length` is the sum of all emitted segment lengths, every segment
has strictly positive length, segment start offsets are cumulative from 0,
all partner-A segments precede all partner-B segments,
`junction_position` is the cumulative length of the partner-A segments,
and the first partner-B segment (when one exists) starts at the junction
position. -/
theorem c5_fusion_transcript_invariants (exons_a exons_b : List FusionsApi.ExonInfo)
    (breakpoint_a breakpoint_b : Option Int) (strand_a strand_b : Option String) :
    (FusionsApi._build_fusion_transcript exons_a exons_b breakpoint_a breakpoint_b
        strand_a strand_b = none ↔ exons_a = [] ∧ exons_b = []) ∧
    (∀ d, FusionsApi._build_fusion_transcript exons_a exons_b breakpoint_a breakpoint_b
        strand_a strand_b = some d →
      d.total_length = (d.exons.map (fun s => s.length)).sum ∧
      (∀ s ∈ d.exons, 0 < s.length) ∧
      FusionsApi.startsCumulative 0 d.exons ∧
      ∃ la lb, d.exons = la ++ lb ∧ (∀ s ∈ la, s.gene = "A") ∧ (∀ s ∈ lb, s.gene = "B") ∧
        d.junction_position = (la.map (fun s => s.length)).sum ∧
        (∀ s rest, lb = s :: rest → s.start = d.junction_position)) := by
  constructor
  · simp only [FusionsApi._build_fusion_transcript]
    split_ifs with h
    · simp [h]
    · simp [h]
  · intro d hd
    simp only [FusionsApi._build_fusion_transcript] at hd
    split_ifs at hd with hempty
    obtain rfl := (Option.some.inj hd).symm
    obtain ⟨hA2, hApos, hAcum⟩ :=
      buildSegs_final "A" breakpoint_a strand_a true
        (exons_a.filter (fun e => e.status = "retained" ∨ e.status = "partial")) 0
    obtain ⟨hB2, hBpos, hBcum⟩ :=
      buildSegs_final "B" breakpoint_b strand_b false
        (exons_b.filter (fun e => e.status = "retained" ∨ e.status = "partial"))
        (FusionsApi.buildSegs "A" breakpoint_a strand_a true 0
          (exons_a.filter (fun e => e.status = "retained" ∨ e.status = "partial"))).2
    refine ⟨?_, ?_, ?_, ?_⟩
    · simp only [List.map_append, List.sum_append]
      rw [hB2, hA2]
      ring
    · intro s hs
      rcases List.mem_append.mp hs with hs' | hs'
      · exact (hApos s hs').1
      · exact (hBpos s hs').1
    · rw [startsCumulative_append]
      refine ⟨hAcum, ?_⟩
      rw [← hA2]
      exact hBcum
    · refine ⟨_, _, rfl, fun s hs => (hApos s hs).2, fun s hs => (hBpos s hs).2, ?_, ?_⟩
      · rw [hA2]
        ring
      · intro s rest hrest
        rw [hrest] at hBcum
        exact hBcum.1

theorem c5_fusion_transcript_invariants_witness :
    FusionsApi._build_fusion_transcript [⟨1, 10, 19, true, "retained"⟩] [] none none none none =
        some ⟨10, some 0, some 10, 10, [⟨"A", 1, 0, 10, 10, true, 10, 19⟩]⟩ ∧
    (⟨10, some 0, some 10, 10, [⟨"A", 1, 0, 10, 10, true, 10, 19⟩]⟩ :
        FusionsApi.FusionTranscriptData).total_length =
      (([⟨"A", 1, 0, 10, 10, true, 10, 19⟩] : List FusionsApi.FusionExonInfo).map
        (fun s => s.length)).sum :=
  ⟨by decide,
    ((c5_fusion_transcript_invariants [⟨1, 10, 19, true, "retained"⟩] [] none none none none).2
      ⟨10, some 0, some 10, 10, [⟨"A", 1, 0, 10, 10, true, 10, 19⟩]⟩ (by decide)).1⟩

theorem intronSnap_eq_false (neg : Bool) (genomic_pos cds_start cds_end : Int)
    (prev : Option Exon) (coding_start coding_end : Int)
    (h : if neg then genomic_pos ≤ coding_end else coding_start ≤ genomic_pos) :
    intronSnap neg genomic_pos cds_start cds_end prev coding_start coding_end = false := by
  cases prev with
  | none => rfl
  | some p =>
    cases neg with
    | false =>
      rw [if_neg (by decide : ¬((false : Bool) = true))] at h
      show decide (genomic_pos < coding_start ∧ cds_start ≤ min p.stop cds_end ∧
        p.stop < genomic_pos) = false
      simp only [decide_eq_false_iff_not]
      omega
    | true =>
      rw [if_pos rfl] at h
      show decide (coding_end < genomic_pos ∧ max p.start cds_start ≤ cds_end ∧
        genomic_pos < p.start) = false
      simp only [decide_eq_false_iff_not]
      omega

theorem calcCdsAux_reach (neg : Bool) (genomic_pos cds_start cds_end : Int) (e : Exon)
    (rest : List Exon)
    (he1 : max e.start cds_start ≤ genomic_pos)
    (he2 : genomic_pos ≤ min e.stop cds_end) :
    ∀ (l1 : List Exon) (prev : Option Exon) (acc : Int),
      (∀ f ∈ l1,
        min f.stop cds_end < max f.start cds_start ∨
          (if neg then
            genomic_pos < max f.start cds_start ∧ genomic_pos ≤ min f.stop cds_end
          else
            min f.stop cds_end < genomic_pos ∧ max f.start cds_start ≤ genomic_pos)) →
      calcCdsAux neg genomic_pos cds_start cds_end prev acc (l1 ++ e :: rest) =
        some (acc + (l1.map (codingLen cds_start cds_end)).sum +
          (if neg then min e.stop cds_end - genomic_pos
           else genomic_pos - max e.start cds_start) + 1) := by
  intro l1
  induction l1 with
  | nil =>
    intro prev acc _
    simp only [List.nil_append, calcCdsAux, List.map_nil, List.sum_nil]
    rw [if_neg (by omega), if_pos ⟨he1, he2⟩]
    simp only [Option.some.injEq]
    ring
  | cons f t ih =>
    intro prev acc hcond
    have hf := hcond f (List.mem_cons_self f t)
    have ht : ∀ g ∈ t, _ := fun g hg => hcond g (List.mem_cons_of_mem f hg)
    simp only [List.cons_append, calcCdsAux, List.map_cons, List.sum_cons, List.append_eq]
    by_cases hskip : min f.stop cds_end < max f.start cds_start
    · rw [if_pos hskip, ih (some f) acc ht]
      have h0 : codingLen cds_start cds_end f = 0 := by
        simp only [codingLen]
        rw [if_pos hskip]
      rw [h0]
      simp only [Option.some.injEq]
      ring
    · have hfr := hf.resolve_left hskip
      have hnotin : ¬(max f.start cds_start ≤ genomic_pos ∧
          genomic_pos ≤ min f.stop cds_end) := by
        by_cases hneg : neg = true
        · rw [if_pos hneg] at hfr
          omega
        · rw [if_neg hneg] at hfr
          omega
      have hsnapc : (if neg then genomic_pos ≤ min f.stop cds_end
          else max f.start cds_start ≤ genomic_pos) := by
        by_cases hneg : neg = true
        · rw [if_pos hneg] at hfr ⊢
          exact hfr.2
        · rw [if_neg hneg] at hfr ⊢
          exact hfr.2
      rw [if_neg hskip, if_neg hnotin,
        if_neg (by
          rw [intronSnap_eq_false neg genomic_pos cds_start cds_end prev
            (max f.start cds_start) (min f.stop cds_end) hsnapc]
          simp),
        ih (some f) (acc + (min f.stop cds_end - max f.start cds_start + 1)) ht]
      have h1 : codingLen cds_start cds_end f =
          min f.stop cds_end - max f.start cds_start + 1 := by
        simp only [codingLen]
        rw [if_neg hskip]
      rw [h1]
      simp only [Option.some.injEq]
      ring

theorem sorted_first_split {α : Type} (P : α → Prop) [DecidablePred P] (R : α → α → Prop)
    (M : List α) :
    List.Pairwise R M → ∀ x ∈ M, P x →
      ∃ l1 e l2, M = l1 ++ e :: l2 ∧ P e ∧ (∀ f ∈ l1, ¬P f ∧ R f e) ∧ (∀ f ∈ l2, R e f) := by
  induction M with
  | nil => intro _ x hx; cases hx
  | cons a t ih =>
    intro hs x hx hPx
    obtain ⟨ha, ht⟩ := List.pairwise_cons.mp hs
    by_cases hPa : P a
    · exact ⟨[], a, t, rfl, hPa, by simp, ha⟩
    · have hx' : x ∈ t := by
        rcases List.mem_cons.mp hx with rfl | h
        · exact absurd hPx hPa
        · exact h
      obtain ⟨l1, e, l2, hM, hPe, hl1, hl2⟩ := ih ht x hx' hPx
      refine ⟨a :: l1, e, l2, by rw [hM]; rfl, hPe, ?_, hl2⟩
      intro f hf
      rcases List.mem_cons.mp hf with rfl | hf'
      · refine ⟨hPa, ha e ?_⟩
        rw [hM]
        exact List.mem_append_right l1 (List.mem_cons_self e l2)
      · exact hl1 f hf'

theorem cds_position_inside_neg (exons : List Exon) (cds_start cds_end genomic_pos : Int)
    (e : Exon) (hdisj : exons.Pairwise exonsDisjoint)
    (hne : ∀ x ∈ exons, x.start ≤ x.stop)
    (he : e ∈ exons)
    (h1 : max e.start cds_start ≤ genomic_pos)
    (h2 : genomic_pos ≤ min e.stop cds_end) :
    _calculate_cds_position genomic_pos "-" exons cds_start cds_end =
      some (((exons.filter (fun f => genomic_pos < f.start)).map
          (codingLen cds_start cds_end)).sum +
        (min e.stop cds_end - genomic_pos) + 1) := by
  classical
  have hperm : (List.insertionSort stopGE exons).Perm exons :=
    List.perm_insertionSort stopGE exons
  have hsort : List.Pairwise stopGE (List.insertionSort stopGE exons) :=
    List.sorted_insertionSort stopGE exons
  have hdisjM : (List.insertionSort stopGE exons).Pairwise exonsDisjoint :=
    (hperm.pairwise_iff fun hab => exonsDisjoint_symm hab).mpr hdisj
  have hneM : ∀ x ∈ List.insertionSort stopGE exons, x.start ≤ x.stop :=
    fun x hx => hne x (hperm.subset hx)
  have heM : e ∈ List.insertionSort stopGE exons := hperm.mem_iff.mpr he
  obtain ⟨l1, e', l2, hsplit, hPe', hl1, hl2⟩ :=
    sorted_first_split
      (fun f => max f.start cds_start ≤ genomic_pos ∧ genomic_pos ≤ min f.stop cds_end)
      (fun a b => stopGE a b ∧ exonsDisjoint a b)
      (List.insertionSort stopGE exons) (hsort.and hdisjM) e heM ⟨h1, h2⟩
  have hq1 : e.start ≤ genomic_pos := le_trans (le_max_left _ _) h1
  have hq2 : genomic_pos ≤ e.stop := le_trans h2 (min_le_left _ _)
  have hqc : genomic_pos ≤ cds_end := le_trans h2 (min_le_right _ _)
  have hee : e' = e := by
    have he_in : e ∈ l1 ++ e' :: l2 := by rw [← hsplit]; exact heM
    rcases List.mem_append.mp he_in with hA | hB
    · exact absurd ⟨h1, h2⟩ (hl1 e hA).1
    · rcases List.mem_cons.mp hB with h' | h'
      · exact h'.symm
      · exfalso
        have hstop : e.stop ≤ e'.stop := (hl2 e h').1
        have hdd := (hl2 e h').2
        have hp1 : e'.start ≤ genomic_pos := le_trans (le_max_left _ _) hPe'.1
        have hp2 : genomic_pos ≤ e'.stop := le_trans hPe'.2 (min_le_left _ _)
        rcases hdd with hlt | hgt <;> omega
  subst hee
  have hl1above : ∀ f ∈ l1, e'.stop < f.start := by
    intro f hf
    have hge : e'.stop ≤ f.stop := (hl1 f hf).2.1
    have hdd := (hl1 f hf).2.2
    rcases hdd with hlt | hgt <;> omega
  have hcond : ∀ f ∈ l1,
      min f.stop cds_end < max f.start cds_start ∨
        (if (true : Bool) then
          genomic_pos < max f.start cds_start ∧ genomic_pos ≤ min f.stop cds_end
        else
          min f.stop cds_end < genomic_pos ∧ max f.start cds_start ≤ genomic_pos) := by
    intro f hf
    have hab := hl1above f hf
    have hge : e'.stop ≤ f.stop := (hl1 f hf).2.1
    refine Or.inr ?_
    rw [if_pos rfl]
    constructor
    · have : genomic_pos < f.start := by omega
      exact lt_of_lt_of_le this (le_max_left _ _)
    · exact le_min (by omega) hqc
  have hfl1 : l1.filter (fun f => genomic_pos < f.start) = l1 :=
    List.filter_eq_self.mpr (fun f hf => by
      simp only [decide_eq_true_eq]
      have := hl1above f hf
      omega)
  have hfe : ¬ genomic_pos < e'.start := by omega
  have hfl2 : ∀ f ∈ l2, ¬ genomic_pos < f.start := by
    intro f hf
    have hstop : f.stop ≤ e'.stop := (hl2 f hf).1
    have hdd := (hl2 f hf).2
    have hfm : f ∈ List.insertionSort stopGE exons := by
      rw [hsplit]
      exact List.mem_append_right l1 (List.mem_cons_of_mem e' hf)
    have hfw := hneM f hfm
    rcases hdd with hlt | hgt <;> omega
  have hfiltM : (List.insertionSort stopGE exons).filter
      (fun f => genomic_pos < f.start) = l1 := by
    rw [hsplit, List.filter_append, List.filter_cons, hfl1]
    have h2' : l2.filter (fun f => genomic_pos < f.start) = [] := by
      rw [List.filter_eq_nil_iff]
      intro f hf
      simp only [decide_eq_true_eq]
      exact hfl2 f hf
    simp [hfe, h2']
  have hsum : ((exons.filter (fun f => genomic_pos < f.start)).map
      (codingLen cds_start cds_end)).sum = (l1.map (codingLen cds_start cds_end)).sum := by
    have hpf := (hperm.filter (fun f => decide (genomic_pos < f.start))).map
      (codingLen cds_start cds_end)
    rw [← hpf.sum_eq, hfiltM]
  show calcCdsAux true genomic_pos cds_start cds_end none 0
      (List.insertionSort stopGE exons) =
    some (((exons.filter (fun f => genomic_pos < f.start)).map
        (codingLen cds_start cds_end)).sum +
      (min e'.stop cds_end - genomic_pos) + 1)
  rw [hsplit, calcCdsAux_reach true genomic_pos cds_start cds_end e' l2 h1 h2 l1 none 0 hcond,
    if_pos rfl, hsum]
  simp only [Option.some.injEq]
  ring

theorem cds_position_inside_pos (exons : List Exon) (cds_start cds_end genomic_pos : Int)
    (e : Exon) (strand : String) (hs : strand ≠ "-")
    (hdisj : exons.Pairwise exonsDisjoint)
    (hne : ∀ x ∈ exons, x.start ≤ x.stop)
    (he : e ∈ exons)
    (h1 : max e.start cds_start ≤ genomic_pos)
    (h2 : genomic_pos ≤ min e.stop cds_end) :
    _calculate_cds_position genomic_pos strand exons cds_start cds_end =
      some (((exons.filter (fun f => f.stop < genomic_pos)).map
          (codingLen cds_start cds_end)).sum +
        (genomic_pos - max e.start cds_start) + 1) := by
  classical
  have hperm : (List.insertionSort startLE exons).Perm exons :=
    List.perm_insertionSort startLE exons
  have hsort : List.Pairwise startLE (List.insertionSort startLE exons) :=
    List.sorted_insertionSort startLE exons
  have hdisjM : (List.insertionSort startLE exons).Pairwise exonsDisjoint :=
    (hperm.pairwise_iff fun hab => exonsDisjoint_symm hab).mpr hdisj
  have hneM : ∀ x ∈ List.insertionSort startLE exons, x.start ≤ x.stop :=
    fun x hx => hne x (hperm.subset hx)
  have heM : e ∈ List.insertionSort startLE exons := hperm.mem_iff.mpr he
  obtain ⟨l1, e', l2, hsplit, hPe', hl1, hl2⟩ :=
    sorted_first_split
      (fun f => max f.start cds_start ≤ genomic_pos ∧ genomic_pos ≤ min f.stop cds_end)
      (fun a b => startLE a b ∧ exonsDisjoint a b)
      (List.insertionSort startLE exons) (hsort.and hdisjM) e heM ⟨h1, h2⟩
  have hq1 : e.start ≤ genomic_pos := le_trans (le_max_left _ _) h1
  have hq2 : genomic_pos ≤ e.stop := le_trans h2 (min_le_left _ _)
  have hqc : cds_start ≤ genomic_pos := le_trans (le_max_right _ _) h1
  have hee : e' = e := by
    have he_in : e ∈ l1 ++ e' :: l2 := by rw [← hsplit]; exact heM
    rcases List.mem_append.mp he_in with hA | hB
    · exact absurd ⟨h1, h2⟩ (hl1 e hA).1
    · rcases List.mem_cons.mp hB with h' | h'
      · exact h'.symm
      · exfalso
        have hstart : e'.start ≤ e.start := (hl2 e h').1
        have hdd := (hl2 e h').2
        have hp1 : e'.start ≤ genomic_pos := le_trans (le_max_left _ _) hPe'.1
        have hp2 : genomic_pos ≤ e'.stop := le_trans hPe'.2 (min_le_left _ _)
        rcases hdd with hlt | hgt <;> omega
  subst hee
  have hwe : e'.start ≤ e'.stop := hneM e' heM
  have hl1below : ∀ f ∈ l1, f.stop < e'.start := by
    intro f hf
    have hle : f.start ≤ e'.start := (hl1 f hf).2.1
    have hdd := (hl1 f hf).2.2
    rcases hdd with hlt | hgt <;> omega
  have hcond : ∀ f ∈ l1,
      min f.stop cds_end < max f.start cds_start ∨
        (if (false : Bool) then
          genomic_pos < max f.start cds_start ∧ genomic_pos ≤ min f.stop cds_end
        else
          min f.stop cds_end < genomic_pos ∧ max f.start cds_start ≤ genomic_pos) := by
    intro f hf
    have hab := hl1below f hf
    have hfm : f ∈ List.insertionSort startLE exons := by
      rw [hsplit]
      exact List.mem_append_left _ hf
    have hfw := hneM f hfm
    refine Or.inr ?_
    rw [if_neg (by decide : ¬((false : Bool) = true))]
    constructor
    · exact lt_of_le_of_lt (min_le_left _ _) (by omega)
    · exact max_le (by omega) hqc
  have hfl1 : l1.filter (fun f => f.stop < genomic_pos) = l1 :=
    List.filter_eq_self.mpr (fun f hf => by
      simp only [decide_eq_true_eq]
      have := hl1below f hf
      omega)
  have hfe : ¬ e'.stop < genomic_pos := by omega
  have hfl2 : ∀ f ∈ l2, ¬ f.stop < genomic_pos := by
    intro f hf
    have hstart : e'.start ≤ f.start := (hl2 f hf).1
    have hdd := (hl2 f hf).2
    have hfm : f ∈ List.insertionSort startLE exons := by
      rw [hsplit]
      exact List.mem_append_right l1 (List.mem_cons_of_mem e' hf)
    have hfw := hneM f hfm
    rcases hdd with hlt | hgt <;> omega
  have hfiltM : (List.insertionSort startLE exons).filter
      (fun f => f.stop < genomic_pos) = l1 := by
    rw [hsplit, List.filter_append, List.filter_cons, hfl1]
    have h2' : l2.filter (fun f => f.stop < genomic_pos) = [] := by
      rw [List.filter_eq_nil_iff]
      intro f hf
      simp only [decide_eq_true_eq]
      exact hfl2 f hf
    simp [hfe, h2']
  have hsum : ((exons.filter (fun f => f.stop < genomic_pos)).map
      (codingLen cds_start cds_end)).sum = (l1.map (codingLen cds_start cds_end)).sum := by
    have hpf := (hperm.filter (fun f => decide (f.stop < genomic_pos))).map
      (codingLen cds_start cds_end)
    rw [← hpf.sum_eq, hfiltM]
  have hbeq : (strand == "-") = false := beq_eq_false_iff_ne.mpr hs
  simp only [_calculate_cds_position, hbeq, Bool.false_eq_true, if_false]
  rw [hsplit, calcCdsAux_reach false genomic_pos cds_start cds_end e' l2 h1 h2 l1 none 0 hcond,
    if_neg (by decide : ¬((false : Bool) = true)), hsum]
  simp only [Option.some.injEq]
  ring

/-- C2 counterexample: on a negative-strand two-exon transcript
(exons [20,25] and [10,12], CDS 10..25) the code maps position 11 (inside
the lower exon) to CDS position 8 = 6 (coding length of the *higher*
exon) + (12 - 11) + 1, while the claim's ascending-walk formula — summed
coding length of the coding exons at *lower* genomic coordinates plus
(codingEnd - position) + 1 — gives 2. -/
theorem c2_counterexample :
    _calculate_cds_position 11 "-" [⟨1, 20, 25⟩, ⟨2, 10, 12⟩] 10 25 = some 8 ∧
    ((([⟨1, 20, 25⟩, ⟨2, 10, 12⟩] : List Exon).filter
        (fun f => f.stop < 11)).map (codingLen 10 25)).sum + (min (12 : Int) 25 - 11) + 1 = 2 ∧
    (8 : Int) ≠ 2 :=
  ⟨by decide, by decide, by decide⟩

/-- C2 (amended): `_calculate_cds_position` walks the exons sorted by
genomic start ascending only on the non-negative strand; on the `-` strand
it walks them sorted by genomic end *descending*.  Consequently, for a
position inside a coding exon of a transcript with pairwise-disjoint
exons: on the `+` strand the value is the summed coding length of the
exons at lower genomic coordinates plus `(position - codingStart) + 1`,
and on the `-` strand it is the summed coding length of the exons at
*higher* genomic coordinates plus `(codingEnd - position) + 1`. -/
theorem c2_cds_walk_formula (exons : List Exon) (cds_start cds_end genomic_pos : Int)
    (e : Exon) (hdisj : exons.Pairwise exonsDisjoint)
    (hne : ∀ x ∈ exons, x.start ≤ x.stop)
    (he : e ∈ exons)
    (h1 : max e.start cds_start ≤ genomic_pos)
    (h2 : genomic_pos ≤ min e.stop cds_end) :
    (∀ strand, strand ≠ "-" →
      _calculate_cds_position genomic_pos strand exons cds_start cds_end =
        some (((exons.filter (fun f => f.stop < genomic_pos)).map
            (codingLen cds_start cds_end)).sum +
          (genomic_pos - max e.start cds_start) + 1)) ∧
    _calculate_cds_position genomic_pos "-" exons cds_start cds_end =
      some (((exons.filter (fun f => genomic_pos < f.start)).map
          (codingLen cds_start cds_end)).sum +
        (min e.stop cds_end - genomic_pos) + 1) :=
  ⟨fun strand hs =>
      cds_position_inside_pos exons cds_start cds_end genomic_pos e strand hs hdisj hne he h1 h2,
    cds_position_inside_neg exons cds_start cds_end genomic_pos e hdisj hne he h1 h2⟩

theorem c2_cds_walk_formula_witness :
    _calculate_cds_position 11 "+" [⟨1, 20, 25⟩, ⟨2, 10, 12⟩] 10 25 =
      some (((([⟨1, 20, 25⟩, ⟨2, 10, 12⟩] : List Exon).filter
          (fun f => f.stop < 11)).map (codingLen 10 25)).sum +
        (11 - max (10 : Int) 10) + 1) ∧
    _calculate_cds_position 11 "-" [⟨1, 20, 25⟩, ⟨2, 10, 12⟩] 10 25 =
      some (((([⟨1, 20, 25⟩, ⟨2, 10, 12⟩] : List Exon).filter
          (fun f => (11 : Int) < f.start)).map (codingLen 10 25)).sum +
        (min (12 : Int) 25 - 11) + 1) :=
  ⟨(c2_cds_walk_formula [⟨1, 20, 25⟩, ⟨2, 10, 12⟩] 10 25 11 ⟨2, 10, 12⟩
      (by decide) (by decide) (by decide) (by decide) (by decide)).1 "+" (by decide),
    (c2_cds_walk_formula [⟨1, 20, 25⟩, ⟨2, 10, 12⟩] 10 25 11 ⟨2, 10, 12⟩
      (by decide) (by decide) (by decide) (by decide) (by decide)).2⟩

/-- C9: for a transcript with a full CDS (1-based coordinates,
`cds_start ≤ cds_end`), pairwise-disjoint exons, and the first CDS base
(in transcription order: `cds_start` on `+`, `cds_end` on `-`) covered by
an exon, `map_genomic_to_aa` at that base returns amino-acid position 1
and `calculate_frame` at that base returns phase 0, on both strands. -/
theorem c9_first_cds_base (t : Transcript) (strand : String) (cds_start cds_end : Int)
    (htr : t.translation = some ⟨some cds_start, some cds_end⟩)
    (hstrand : strand = "+" ∨ strand = "-")
    (hpos : 1 ≤ cds_start) (hcc : cds_start ≤ cds_end)
    (hdisj : t.exons.Pairwise exonsDisjoint)
    (hne : ∀ x ∈ t.exons, x.start ≤ x.stop)
    (hcov : ∃ x ∈ t.exons, x.start ≤ firstCdsBase strand cds_start cds_end ∧
        firstCdsBase strand cds_start cds_end ≤ x.stop) :
    map_genomic_to_aa t (firstCdsBase strand cds_start cds_end) strand = some 1 ∧
    calculate_frame t (firstCdsBase strand cds_start cds_end) strand = some 0 := by
  obtain ⟨x, hx, hx1, hx2⟩ := hcov
  have hcds : ∀ l : List Exon, l.Perm t.exons →
      _calculate_cds_position (firstCdsBase strand cds_start cds_end) strand l
        cds_start cds_end = some 1 := by
    intro l hl
    have hdisj' : l.Pairwise exonsDisjoint :=
      (hl.pairwise_iff fun hab => exonsDisjoint_symm hab).mpr hdisj
    have hne' : ∀ y ∈ l, y.start ≤ y.stop := fun y hy => hne y (hl.subset hy)
    have hx' : x ∈ l := hl.mem_iff.mpr hx
    rcases hstrand with hplus | hminus
    · subst hplus
      have hfb : firstCdsBase "+" cds_start cds_end = cds_start := rfl
      rw [hfb] at hx1 hx2 ⊢
      rw [cds_position_inside_pos l cds_start cds_end cds_start x "+" (by decide)
        hdisj' hne' hx' (max_le hx1 le_rfl) (le_min hx2 hcc)]
      have hmax : max x.start cds_start = cds_start := by omega
      have hzero : ((l.filter (fun f => f.stop < cds_start)).map
          (codingLen cds_start cds_end)).sum = 0 := by
        apply List.sum_eq_zero
        intro v hv
        simp only [List.mem_map] at hv
        obtain ⟨f, hf, rfl⟩ := hv
        have hfs : f.stop < cds_start := by
          have := (List.mem_filter.mp hf).2
          simpa using this
        simp only [codingLen]
        rw [if_pos (by omega)]
      rw [hzero, hmax]
      norm_num
    · subst hminus
      have hfb : firstCdsBase "-" cds_start cds_end = cds_end := rfl
      rw [hfb] at hx1 hx2 ⊢
      rw [cds_position_inside_neg l cds_start cds_end cds_end x
        hdisj' hne' hx' (max_le hx1 hcc) (le_min hx2 le_rfl)]
      have hmin : min x.stop cds_end = cds_end := by omega
      have hzero : ((l.filter (fun f => cds_end < f.start)).map
          (codingLen cds_start cds_end)).sum = 0 := by
        apply List.sum_eq_zero
        intro v hv
        simp only [List.mem_map] at hv
        obtain ⟨f, hf, rfl⟩ := hv
        have hfs : cds_end < f.start := by
          have := (List.mem_filter.mp hf).2
          simpa using this
        simp only [codingLen]
        rw [if_pos (by omega)]
      rw [hzero, hmin]
      norm_num
  have hxne : t.exons ≠ [] := by
    intro hnil
    rw [hnil] at hx
    cases hx
  have hsne : List.insertionSort rankLE t.exons ≠ [] := by
    intro hnil
    have hp := List.perm_insertionSort rankLE t.exons
    rw [hnil] at hp
    exact hxne hp.symm.eq_nil
  have hsempty : (List.insertionSort rankLE t.exons).isEmpty = false := by
    rw [List.isEmpty_eq_false]
    exact hsne
  have hmap : map_genomic_to_aa t (firstCdsBase strand cds_start cds_end) strand = some 1 := by
    simp only [map_genomic_to_aa, htr, hsempty,
      hcds (List.insertionSort rankLE t.exons) (List.perm_insertionSort rankLE t.exons)]
    rw [if_neg (by simp), if_neg (by omega : ¬(cds_start = 0 ∨ cds_end = 0)),
      if_neg (by omega : ¬(1 : Int) < 1)]
    norm_num
  refine ⟨hmap, ?_⟩
  simp only [calculate_frame, hmap, htr, hcds t.exons (List.Perm.refl _)]
  norm_num

theorem c9_first_cds_base_witness :
    map_genomic_to_aa ⟨[⟨1, 100, 200⟩], some ⟨some 120, some 180⟩⟩
        (firstCdsBase "+" 120 180) "+" = some 1 ∧
    calculate_frame ⟨[⟨1, 100, 200⟩], some ⟨some 120, some 180⟩⟩
        (firstCdsBase "+" 120 180) "+" = some 0 :=
  c9_first_cds_base ⟨[⟨1, 100, 200⟩], some ⟨some 120, some 180⟩⟩ "+" 120 180 rfl
    (Or.inl rfl) (by decide) (by decide) (by decide) (by decide) (by decide)
